import Mathlib

/-!
Shallow embedding of the eBay API client (package `ebay`, file `ebay.go`)
and proofs about its request/response pipeline.

External effects (the Go standard library's `net/url` resolution,
`encoding/json` encoding/decoding, the HTTP transport, and request
dumping) are modelled as explicit function parameters of the embedded
operations; the repository's own control flow is translated literally.
-/

set_option autoImplicit false

namespace Ebay

/-- A parsed URL (`*url.URL` in Go), modelled abstractly by its `Scheme`
field and its string representation; parsing and reference resolution
are parameters of the operations that use them. The `scheme` field is
what `ResolveReference` branches on: a reference with a non-empty scheme
is an absolute URI. -/
structure URL where
  scheme : String
  repr : String
  deriving DecidableEq, Repr

/-- Struct `ebay.Error`: one error entry of an eBay API error payload
(struct `Error` in `ebay.go`). Field defaults are Go zero values. -/
structure Error where
  ErrorID : Int := 0
  Domain : String := ""
  SubDomain : String := ""
  Category : String := ""
  Message : String := ""
  LongMessage : String := ""
  InputRefIds : List String := []
  OuputRefIds : List String := []
  Parameters : List (String × String) := []
  deriving DecidableEq, Repr

/-- An HTTP response as far as this library observes it: a status code and
a body (the body bytes as a string). -/
structure Response where
  statusCode : Int
  body : String
  deriving DecidableEq, Repr

/-- Struct `ebay.ErrorData` (struct `ErrorData` in `ebay.go`): the structured
error returned for non-2xx responses, carrying the decoded error entries,
the originating response and the request dump. -/
structure ErrorData where
  Errors : List Error := []
  response : Response
  requestDump : String
  deriving DecidableEq, Repr

/-- The `error` values this library can hand to `IsError`: either an
`*ErrorData` or some other error (e.g. a transport error), matching Go's
type assertion `err.(*ErrorData)`. A Go `nil` error is `Option.none` at
use sites. -/
inductive GoError where
  | errorData (d : ErrorData)
  | other (msg : String)
  deriving DecidableEq, Repr

/-- Function `ebay.CheckResponse` from `ebay.go`:

```go
func CheckResponse(req *http.Request, resp *http.Response, dump string) error {
    if s := resp.StatusCode; 200 <= s && s < 300 {
        return nil
    }
    errorData := &ErrorData{response: resp, requestDump: dump}
    _ = json.NewDecoder(resp.Body).Decode(errorData)
    return errorData
}
```

`decode` models `json.NewDecoder(resp.Body).Decode(errorData)`: it returns
the final value of the `Errors` field when decoding succeeds, and `none`
when decoding fails (the body is not a syntactically valid JSON value, or
is empty), in which case `Errors` keeps its zero value `[]` — the Go code
discards the decode error (`_ =`). `none` is Go `nil`. -/
def CheckResponse (decode : String → Option (List Error))
    (resp : Response) (dump : String) : Option ErrorData :=
  if 200 ≤ resp.statusCode ∧ resp.statusCode < 300 then
    none
  else
    some { Errors := (decode resp.body).getD []
           response := resp
           requestDump := dump }

/-- Function `ebay.IsError` from `ebay.go`:

```go
func IsError(err error, codes ...int) bool {
    if err == nil { return false }
    errData, ok := err.(*ErrorData)
    if !ok { return false }
    for _, e := range errData.Errors {
        for _, code := range codes {
            if e.ErrorID == code { return true }
        }
    }
    return false
}
``` -/
def IsError (err : Option GoError) (codes : List Int) : Bool :=
  match err with
  | none => false
  | some (.other _) => false
  | some (.errorData errData) =>
      errData.Errors.any fun e => codes.any fun code => e.ErrorID == code

/-- Go test `strings.HasPrefix(s, "/")`: whether the string begins with a slash. -/
def leadingSlash (s : String) : Bool :=
  match s.data with
  | [] => false
  | c :: _ => c == '/'

/-- Go test `strings.HasSuffix(s, "/")`: whether the string ends with a slash. -/
def trailingSlash (s : String) : Bool :=
  match s.data.getLast? with
  | some c => c == '/'
  | none => false

/-- An outgoing `*http.Request` as far as this library constructs and
mutates it: method, resolved URL, optional serialized body, and the
headers (and query parameters) that options may add. -/
structure Request where
  method : String
  url : URL
  body : Option String := none
  headers : List (String × String) := []
  deriving DecidableEq, Repr

/-- Type `ebay.Opt`: a functional option mutating an outgoing request in
place. -/
def Opt : Type := Request → Request

/-- Struct `ebay.Client`. `baseURL` is `none` exactly when `url.Parse` failed in
`newClient` (Go stores the nil pointer). The `http.Client` handle and the
service groups are not modelled: no claim mentions them. -/
structure Client where
  baseURL : Option URL

/-- Function `ebay.newClient`: `parse` models `url.Parse`. Its error is discarded
by the source (`url, _ := url.Parse(baseURL)`), so an unparseable base
URL silently yields a client whose `baseURL` is nil. -/
def newClient (parse : String → Option URL) (baseURL : String) : Client :=
  { baseURL := parse baseURL }

/-- Function `ebay.NewCustomClient`: rejects base URLs without a trailing slash,
otherwise delegates to `newClient`. -/
def NewCustomClient (parse : String → Option URL) (baseURL : String) :
    Except String Client :=
  if !trailingSlash baseURL then
    .error ("BaseURL " ++ baseURL ++ " must have a trailing slash")
  else
    .ok (newClient parse baseURL)

/-- The outcome of `NewRequest`: a request, a returned error, or a
run-time panic (the nil-pointer dereference inside `c.baseURL.Parse(url)`
that can occur when the client's base URL failed to parse). -/
inductive ReqResult where
  | ok (req : Request)
  | err (msg : String)
  | panics
  deriving DecidableEq, Repr

/-- The outcome of the Go expression `c.baseURL.Parse(url)`: a resolved
URL, a returned parse error, or a nil-pointer panic. -/
inductive ResolveOutcome where
  | ok (u : URL)
  | err (msg : String)
  | panics
  deriving DecidableEq, Repr

/-- Model of the Go method call `c.baseURL.Parse(ref)`, including its
behavior on a nil receiver. The method is

```go
func (u *URL) Parse(ref string) (*URL, error) {
    refURL, err := Parse(ref)
    if err != nil {
        return nil, err
    }
    return u.ResolveReference(refURL), nil
}
```

`parseRef` models the receiver-free `url.Parse(ref)`; its failure is
returned before the receiver is ever touched. `resolveRef` models
`u.ResolveReference(refURL)` for a non-nil receiver: standard
URL-reference resolution, a total function. When the receiver is nil,
`ResolveReference` starts with `url := *ref` and reaches `u.Scheme` only
under `if ref.Scheme == "" `: a reference with a non-empty scheme takes
the absolute-URI branch, which normalizes the reference's own path and
never dereferences the nil receiver (the model absorbs that path
normalization into the parsed representation `refURL`), while a
scheme-less reference dereferences nil and panics. -/
def baseURLParse (parseRef : String → Except String URL)
    (resolveRef : URL → URL → URL)
    (base : Option URL) (ref : String) : ResolveOutcome :=
  match parseRef ref with
  | .error e => .err e
  | .ok refURL =>
    match base with
    | some b => .ok (resolveRef b refURL)
    | none => if refURL.scheme == "" then .panics else .ok refURL

/-- Whether a character may appear in an HTTP method: the RFC 7230 token
characters, i.e. ASCII letters, digits, and the punctuation set
written out in `net/http`'s token table (`!`, `#`, `$`, `%`, `&`,
apostrophe, `*`, `+`, `-`, `.`, `^`, `_`, backquote, `|`, `~`), here
given by ASCII code. -/
def isTokenChar (c : Char) : Bool :=
  c.isAlphanum ||
    [33, 35, 36, 37, 38, 39, 42, 43, 45, 46, 94, 95, 96, 124, 126].contains c.toNat

/-- Model of `net/http`'s `validMethod`: non-empty and made of token
characters only. -/
def validMethod (m : String) : Bool :=
  !m.data.isEmpty && m.data.all isTokenChar

/-- Model of `http.NewRequest(method, u.String(), buf)`: an empty method
defaults to GET, an invalid method is rejected, and otherwise the request
is assembled. Go re-parses `u.String()`; since `u` is itself the result
of a parse, that round trip returns the same URL and is absorbed into the
identification of a URL with its parsed representation. -/
def httpNewRequest (method : String) (u : URL) (body : Option String) :
    Except String Request :=
  let m := if method == "" then "GET" else method
  if validMethod m then
    .ok { method := m, url := u, body := body }
  else
    .error ("net/http: invalid method " ++ m)

/-- Function `ebay.NewRequest` up to (but excluding) the option loop,
translated step by step from the source:

```go
if strings.HasPrefix(url, "/") {
    return nil, errors.New("url should always be specified without a preceding slash")
}
u, err := c.baseURL.Parse(url)
if err != nil {
    return nil, errors.WithStack(err)
}
var buf io.ReadWriter
if body != nil {
    buf = new(bytes.Buffer)
    enc := json.NewEncoder(buf)
    enc.SetEscapeHTML(false)
    if err := enc.Encode(body); err != nil {
        return nil, err
    }
}

req, err := http.NewRequest(method, u.String(), buf)
if err != nil {
    return nil, errors.WithStack(err)
}
```

`c.baseURL.Parse` is `baseURLParse` (with its nil-receiver behavior);
`encode` models `json.Encoder.Encode` with its Boolean `SetEscapeHTML`
setting — the source always passes `false`; `http.NewRequest` is
`httpNewRequest`, whose error (an invalid method) is returned as the
source returns it. -/
def newRequestNoOpts {β : Type} (parseRef : String → Except String URL)
    (resolveRef : URL → URL → URL)
    (encode : Bool → β → Except String String)
    (c : Client) (method urlStr : String) (body : Option β) : ReqResult :=
  if leadingSlash urlStr then
    .err "url should always be specified without a preceding slash"
  else
    match baseURLParse parseRef resolveRef c.baseURL urlStr with
    | .err e => .err e
    | .panics => .panics
    | .ok u =>
      let bufRes : Except String (Option String) :=
        match body with
        | none => .ok none
        | some b =>
          match encode false b with
          | .error e => .error e
          | .ok buf => .ok (some buf)
      match bufRes with
      | .error e => .err e
      | .ok buf =>
        match httpNewRequest method u buf with
        | .error e => .err e
        | .ok req => .ok req

/-- Function `ebay.NewRequest`: builds the request and then runs the
option loop

```go
for _, opt := range opts {
    opt(req)
}
``` -/
def NewRequest {β : Type} (parseRef : String → Except String URL)
    (resolveRef : URL → URL → URL)
    (encode : Bool → β → Except String String)
    (c : Client) (method urlStr : String) (body : Option β)
    (opts : List Opt) : ReqResult :=
  match newRequestNoOpts parseRef resolveRef encode c method urlStr body with
  | .ok req => .ok (opts.foldl (fun r opt => opt r) req)
  | r => r

/-- Lower-case hexadecimal digit, as `encoding/json` emits in `\u00XX`
escapes. -/
def hexDigit (n : Nat) : Char :=
  if n < 10 then Char.ofNat (48 + n) else Char.ofNat (87 + n)

/-- Model of `encoding/json` string-character escaping
(`encodeState.string`): `"` and `\` get backslash escapes; `<`, `>` and
`&` become `\u00XX` escapes exactly when HTML escaping is enabled (the
encoder default, turned off by `SetEscapeHTML(false)`); newline, carriage
return and tab get two-character escapes; other control characters become
`\u00XX`; every remaining character is emitted verbatim. -/
def jsonEscapeChar (escapeHTML : Bool) (c : Char) : List Char :=
  if c == '"' then ['\\', '"']
  else if c == '\\' then ['\\', '\\']
  else if escapeHTML && (c == '<' || c == '>' || c == '&') then
    ['\\', 'u', '0', '0', hexDigit (c.toNat / 16), hexDigit (c.toNat % 16)]
  else if c == '\n' then ['\\', 'n']
  else if c == '\r' then ['\\', 'r']
  else if c == '\t' then ['\\', 't']
  else if c.toNat < 32 then
    ['\\', 'u', '0', '0', hexDigit (c.toNat / 16), hexDigit (c.toNat % 16)]
  else [c]

/-- Escape every character of a string body in order. -/
def jsonStringChars (escapeHTML : Bool) : List Char → List Char
  | [] => []
  | c :: cs => jsonEscapeChar escapeHTML c ++ jsonStringChars escapeHTML cs

/-- Model of `encoding/json` encoding of a Go string value: the escaped
characters wrapped in quotes. -/
def jsonEncodeString (escapeHTML : Bool) (s : String) : String :=
  "\"" ++ String.mk (jsonStringChars escapeHTML s.data) ++ "\""

/-- Scalar Go values handed to `json.Encoder.Encode` as a request body;
`unsupported` stands for the values `encoding/json` cannot marshal
(channels, functions, cyclic values), on which `Encode` returns an
error. -/
inductive GoValue where
  | str (s : String)
  | num (n : Int)
  | boolean (b : Bool)
  | null
  | unsupported (typeName : String)
  deriving DecidableEq, Repr

/-- Model of `json.Encoder.Encode` with `SetEscapeHTML(escapeHTML)`:
serializes the value and appends the newline that `Encode` writes after
every value. -/
def jsonEncode (escapeHTML : Bool) : GoValue → Except String String
  | .str s => .ok (jsonEncodeString escapeHTML s ++ "\n")
  | .num n => .ok (toString n ++ "\n")
  | .boolean b => .ok ((if b then "true" else "false") ++ "\n")
  | .null => .ok ("null" ++ "\n")
  | .unsupported t => .error ("json: unsupported type: " ++ t)

/-- The text before the first colon of a URL string, or "" when there is
no colon: the `Scheme` the witness parser below records. -/
def schemeOf (cs : List Char) : String :=
  if cs.contains ':' then String.mk (cs.takeWhile (fun c => !(c == ':'))) else ""

/-- Miniature model of `url.Parse`, used only as a concrete witness
input: `net/url` rejects strings containing ASCII control characters
("net/url: invalid control character in URL"); an accepted string is
recorded with the text before its first colon as the scheme. -/
def ctlParse (s : String) : Option URL :=
  if s.data.any (fun c => c.toNat < 32) then none
  else some { scheme := schemeOf s.data, repr := s }

/-- The same witness parser in the `Except` shape of the receiver-free
`url.Parse(ref)` used by `baseURLParse`. -/
def ctlParseRef (s : String) : Except String URL :=
  match ctlParse s with
  | some u => .ok u
  | none => .error "net/url: invalid control character in URL"

/-- The error values `Do` can return: a transport failure from
`c.client.Do`, the `*ErrorData` produced by `CheckResponse`, or a JSON
decode failure on a success response. -/
inductive DoError where
  | transport (msg : String)
  | api (e : ErrorData)
  | decodeFailure (msg : String)
  deriving DecidableEq, Repr

/-- What a call to `Do` leaves behind: the returned error (Go `nil` is
`none`), the final value of the caller-supplied destination, whether the
deferred `resp.Body.Close()` ran, and whether any statement on the taken
path read from the response body. -/
structure DoOutput (δ : Type) where
  err : Option DoError
  dest : δ
  bodyClosed : Bool
  bodyRead : Bool
  deriving DecidableEq, Repr

/-- Function `ebay.Do` from `ebay.go`:

```go
func (c *Client) Do(ctx context.Context, req *http.Request, v interface{}) error {
    dump, _ := httputil.DumpRequest(req, true)
    resp, err := c.client.Do(req.WithContext(ctx))
    if err != nil {
        return errors.WithStack(err)
    }
    defer resp.Body.Close()
    if err := CheckResponse(req, resp, string(dump)); err != nil {
        return err
    }
    if v == nil {
        return nil
    }
    return errors.WithStack(json.NewDecoder(resp.Body).Decode(v))
}
```

`dumpOf` models `httputil.DumpRequest`; `send` models the HTTP round
trip `c.client.Do` (context handling is inside it); `decodeErrBody`
models the error-payload decoding inside `CheckResponse`; `decodeDest`
models `json.NewDecoder(resp.Body).Decode(v)` for the destination `v` —
it returns the decode error (or `none`) together with the value `v`
holds afterwards, because Go's decoder writes into `v` while decoding
and may leave it partially populated when it fails. `wantDest` is
`v != nil`; when it is false, `dest` is returned as given. The Boolean
fields record the resource behavior of the taken path: `bodyClosed` is
false only when the transport fails (there is no response to close, and
the `defer` is registered after that return); a body read happens
exactly in the two `json.NewDecoder(resp.Body)` decodes — the
`v == nil` success path returns without any statement reading the
body. -/
def Do {δ : Type} (dumpOf : Request → String)
    (send : Request → Except String Response)
    (decodeErrBody : String → Option (List Error))
    (decodeDest : String → δ → Option String × δ)
    (req : Request) (wantDest : Bool) (dest : δ) : DoOutput δ :=
  let dump := dumpOf req
  match send req with
  | .error e =>
      { err := some (.transport e), dest := dest,
        bodyClosed := false, bodyRead := false }
  | .ok resp =>
    match CheckResponse decodeErrBody resp dump with
    | some errorData =>
        { err := some (.api errorData), dest := dest,
          bodyClosed := true, bodyRead := true }
    | none =>
      if !wantDest then
        { err := none, dest := dest, bodyClosed := true, bodyRead := false }
      else
        match decodeDest resp.body dest with
        | (some e, d) =>
            { err := some (.decodeFailure e), dest := d,
              bodyClosed := true, bodyRead := true }
        | (none, d) =>
            { err := none, dest := d, bodyClosed := true, bodyRead := true }

/-- A destination type for `Do`: two fields of a typical item response.
Defaults are Go zero values — the state of a freshly allocated
destination. -/
structure Item where
  itemID : String := ""
  total : Int := 0
  deriving DecidableEq, Repr

/-- Model of `json.NewDecoder(body).Decode(v)` for `v : *Item` at one
concrete body, `\x7b"itemId":"x","total":true\x7d`: Go's decoder fills
struct fields as it reads them, so it assigns `ItemID = "x"` and then
fails to unmarshal `true` into the `int` field `Total`, returning an
`UnmarshalTypeError` while leaving the already-written field in place.
On every other body this model decodes nothing and reports success. -/
def itemDecodeAt (body : String) (d : Item) : Option String × Item :=
  if body = "\x7b\"itemId\":\"x\",\"total\":true\x7d" then
    (some "json: cannot unmarshal bool into Go struct field Item.total of type int",
     { d with itemID := "x" })
  else
    (none, d)

end Ebay

namespace Ebay

/-- C2: `CheckResponse` returns nil exactly when the status code is in
[200, 300); for every status code outside that range it returns a non-nil
error that carries the response's status code and the request dump passed
to it. -/
theorem checkResponse_status_classification
    (decode : String → Option (List Error)) (resp : Response) (dump : String) :
    (CheckResponse decode resp dump = none ↔
      200 ≤ resp.statusCode ∧ resp.statusCode < 300) ∧
    (¬ (200 ≤ resp.statusCode ∧ resp.statusCode < 300) →
      ∃ ed, CheckResponse decode resp dump = some ed ∧
        ed.response.statusCode = resp.statusCode ∧ ed.requestDump = dump) := by
  unfold CheckResponse
  split <;> simp_all

/-- Witness for C2 at a concrete 404 response. -/
theorem checkResponse_status_classification_witness :
    ∃ ed, CheckResponse (fun _ => none) ⟨404, "oops"⟩ "DUMP" = some ed ∧
      ed.response.statusCode = 404 ∧ ed.requestDump = "DUMP" :=
  (checkResponse_status_classification (fun _ => none) ⟨404, "oops"⟩ "DUMP").2
    (by decide)

/-- C4: for every non-2xx response whose body the error decoder cannot
decode (not valid JSON, or empty), `CheckResponse` still returns a non-nil
`ErrorData` whose error-entry list is empty: the decode failure is
swallowed (`_ =` in the source), and the total function degrades to a
minimally-populated error rather than failing. -/
theorem checkResponse_bad_body_empty_errors
    (decode : String → Option (List Error)) (resp : Response) (dump : String)
    (hs : ¬ (200 ≤ resp.statusCode ∧ resp.statusCode < 300))
    (hd : decode resp.body = none) :
    CheckResponse decode resp dump =
      some { Errors := [], response := resp, requestDump := dump } := by
  unfold CheckResponse
  simp [hs, hd]

/-- Witness for C4: a 500 response with a non-JSON body. -/
theorem checkResponse_bad_body_empty_errors_witness :
    CheckResponse (fun _ => none) ⟨500, "<html>not json</html>"⟩ "DUMP" =
      some { Errors := [], response := ⟨500, "<html>not json</html>"⟩,
             requestDump := "DUMP" } :=
  checkResponse_bad_body_empty_errors (fun _ => none)
    ⟨500, "<html>not json</html>"⟩ "DUMP" (by decide) rfl

/-- C5: `IsError err codes` is true iff `err` is a non-nil `*ErrorData`
one of whose entries has an `ErrorID` equal to one of the queried codes;
in particular it is false for nil, for non-`ErrorData` errors, and when
either list is empty. -/
theorem isError_characterization (err : Option GoError) (codes : List Int) :
    (IsError err codes = true ↔
      ∃ d, err = some (.errorData d) ∧
        ∃ e ∈ d.Errors, ∃ c ∈ codes, e.ErrorID = c) ∧
    IsError none codes = false ∧
    (∀ msg, IsError (some (.other msg)) codes = false) ∧
    (∀ d, IsError (some (.errorData d)) [] = false) ∧
    (∀ resp dump, IsError (some (.errorData ⟨[], resp, dump⟩)) codes = false) := by
  refine ⟨?_, rfl, fun _ => rfl, ?_, fun _ _ => by simp [IsError]⟩
  · match err with
    | none => simp [IsError]
    | some (.other msg) => simp [IsError]
    | some (.errorData d) => simp [IsError, List.any_eq_true]
  · intro d
    simp [IsError]

/-- Witness for C5: an `ErrorData` with entry 11001 matches the query
`[10000, 11001]`. -/
theorem isError_characterization_witness :
    IsError (some (.errorData
      { Errors := [({ ErrorID := 11001 } : Error)]
        response := ⟨400, ""⟩
        requestDump := "DUMP" })) [10000, 11001] = true :=
  (isError_characterization _ _).1.mpr
    ⟨_, rfl, ({ ErrorID := 11001 } : Error), by simp, 11001, by simp, rfl⟩

/-- Helper: options that only touch headers or query parameters leave the
URL of the request unchanged through the option loop. -/
theorem url_foldl_opts (opts : List Opt)
    (h : ∀ opt ∈ opts, ∀ r, (opt r).url = r.url) (r : Request) :
    (opts.foldl (fun r opt => opt r) r).url = r.url := by
  induction opts generalizing r with
  | nil => rfl
  | cons o os ih =>
      simp only [List.foldl_cons]
      rw [ih (fun opt hm r => h opt (List.mem_cons_of_mem _ hm) r),
        h o (List.mem_cons_self _ _)]

/-- C1: a path starting with "/" makes `NewRequest` fail with the
invalid-path error whatever the parser, resolver, encoder, client, body
and options are (so the failure happens before URL resolution or body
encoding is attempted); for every other path, whenever the path parses
as a URL reference (and the body, if present, encodes, and the method
passes `http.NewRequest`'s validity check), `NewRequest` succeeds and
the request's URL is exactly the reference resolved against the client's
base URL by standard URL-reference resolution (`resolveRef`, the model
of `ResolveReference`). -/
theorem newRequest_leading_slash_and_resolution {β : Type}
    (parseRef : String → Except String URL) (resolveRef : URL → URL → URL)
    (encode : Bool → β → Except String String)
    (c : Client) (method urlStr : String) (body : Option β) (opts : List Opt) :
    (leadingSlash urlStr = true →
      NewRequest parseRef resolveRef encode c method urlStr body opts =
        .err "url should always be specified without a preceding slash") ∧
    (∀ base refURL, leadingSlash urlStr = false →
      c.baseURL = some base → parseRef urlStr = .ok refURL →
      (∀ b, body = some b → ∃ s, encode false b = .ok s) →
      validMethod (if method == "" then "GET" else method) = true →
      (∀ opt ∈ opts, ∀ r, (opt r).url = r.url) →
      ∃ req, NewRequest parseRef resolveRef encode c method urlStr body opts =
        .ok req ∧ req.url = resolveRef base refURL) := by
  constructor
  · intro h
    simp [NewRequest, newRequestNoOpts, h]
  · intro base refURL hp hb hr henc hm hopts
    have hm' : validMethod (if method = "" then "GET" else method) = true := by
      simpa using hm
    cases body with
    | none =>
        refine ⟨opts.foldl (fun r opt => opt r)
          { method := if method = "" then "GET" else method,
            url := resolveRef base refURL }, ?_, ?_⟩
        · simp [NewRequest, newRequestNoOpts, baseURLParse, httpNewRequest,
            hp, hb, hr, hm']
        · rw [url_foldl_opts opts hopts]
    | some b =>
        obtain ⟨s, hs⟩ := henc b rfl
        refine ⟨opts.foldl (fun r opt => opt r)
          { method := if method = "" then "GET" else method,
            url := resolveRef base refURL, body := some s }, ?_, ?_⟩
        · simp [NewRequest, newRequestNoOpts, baseURLParse, httpNewRequest,
            hp, hb, hr, hs, hm']
        · rw [url_foldl_opts opts hopts]

/-- Witness for C1: a leading-slash path is rejected, and the production
base URL resolves a browse path as expected. -/
theorem newRequest_leading_slash_and_resolution_witness :
    NewRequest (β := GoValue) ctlParseRef
        (fun b r => ⟨b.scheme, b.repr ++ r.repr⟩) jsonEncode
        ⟨some ⟨"https", "https://api.ebay.com/"⟩⟩ "GET" "/item" none [] =
      .err "url should always be specified without a preceding slash" ∧
    ∃ req, NewRequest (β := GoValue) ctlParseRef
        (fun b r => ⟨b.scheme, b.repr ++ r.repr⟩) jsonEncode
        ⟨some ⟨"https", "https://api.ebay.com/"⟩⟩ "GET" "buy/browse/v1/item"
        none [] =
        .ok req ∧
      req.url = ⟨"https", "https://api.ebay.com/buy/browse/v1/item"⟩ := by
  constructor
  · exact (newRequest_leading_slash_and_resolution _ _ _ _ _ _ _ _).1 rfl
  · exact (newRequest_leading_slash_and_resolution _ _ _ _ _ _ _ _).2
      ⟨"https", "https://api.ebay.com/"⟩ ⟨"", "buy/browse/v1/item"⟩
      rfl rfl rfl (fun b hb => by cases hb) (by decide) (fun opt h => by cases h)

/-- C7: options are applied left-to-right in the listed order to the
fully constructed request: building with `[A, B]` yields the same result
as building with no options and then applying `A` followed by `B`. -/
theorem newRequest_opts_in_order {β : Type}
    (parseRef : String → Except String URL) (resolveRef : URL → URL → URL)
    (encode : Bool → β → Except String String)
    (c : Client) (method urlStr : String) (body : Option β) (A B : Opt) :
    NewRequest parseRef resolveRef encode c method urlStr body [A, B] =
      (match NewRequest parseRef resolveRef encode c method urlStr body [] with
       | .ok req => .ok (B (A req))
       | .err e => .err e
       | .panics => .panics) := by
  unfold NewRequest
  cases newRequestNoOpts parseRef resolveRef encode c method urlStr body <;> rfl

/-- Witness for C7 at concrete header-adding options. -/
theorem newRequest_opts_in_order_witness :
    NewRequest (β := GoValue) ctlParseRef
        (fun b r => ⟨b.scheme, b.repr ++ r.repr⟩) jsonEncode
        ⟨some ⟨"https", "https://api.ebay.com/"⟩⟩ "GET" "item" none
        [fun r => { r with headers := r.headers ++ [("A", "1")] },
         fun r => { r with headers := r.headers ++ [("B", "2")] }] =
      (match NewRequest (β := GoValue) ctlParseRef
          (fun b r => ⟨b.scheme, b.repr ++ r.repr⟩) jsonEncode
          ⟨some ⟨"https", "https://api.ebay.com/"⟩⟩ "GET" "item" none [] with
       | .ok req => .ok ((fun r => { r with headers := r.headers ++ [("B", "2")] })
            ((fun r => { r with headers := r.headers ++ [("A", "1")] }) req))
       | .err e => .err e
       | .panics => .panics) :=
  newRequest_opts_in_order _ _ _ _ _ _ _ _ _

/-- Helper: string append concatenates the underlying character lists. -/
theorem string_data_append (s t : String) : (s ++ t).data = s.data ++ t.data := by
  cases s
  cases t
  rfl

/-- Helper: a character whose escape is itself survives the escaping of
any string that contains it. -/
theorem mem_jsonStringChars (esc : Bool) (ch : Char) (cs : List Char)
    (h : ch ∈ cs) (hch : ch ∈ jsonEscapeChar esc ch) :
    ch ∈ jsonStringChars esc cs := by
  induction cs with
  | nil => cases h
  | cons d ds ih =>
      rw [jsonStringChars]
      rcases List.mem_cons.mp h with h1 | h2
      · subst h1
        exact List.mem_append_left _ hch
      · exact List.mem_append_right _ (ih h2)

/-- C8: a non-nil body is serialized with HTML escaping disabled —
`NewRequest` passes `false` (the model of `enc.SetEscapeHTML(false)`) to
the encoder, so for a string body (and a method passing
`http.NewRequest`'s validity check) the literal characters `<`, `>`, `&`
appear unescaped in the request payload; and if serialization fails,
`NewRequest` returns that error and produces no request. -/
theorem newRequest_body_encoding {β : Type}
    (parseRef : String → Except String URL) (resolveRef : URL → URL → URL)
    (encode : Bool → β → Except String String)
    (c : Client) (method urlStr : String) (base refURL : URL)
    (hp : leadingSlash urlStr = false)
    (hb : c.baseURL = some base)
    (hr : parseRef urlStr = .ok refURL) :
    (∀ (b : β) e opts, encode false b = .error e →
      NewRequest parseRef resolveRef encode c method urlStr (some b) opts =
        .err e) ∧
    (∀ s : String, validMethod (if method == "" then "GET" else method) = true →
      ∃ req,
      NewRequest parseRef resolveRef jsonEncode c method urlStr
          (some (GoValue.str s)) [] =
        .ok req ∧
      req.body = some (jsonEncodeString false s ++ "\n") ∧
      ∀ ch ∈ (['<', '>', '&'] : List Char), ch ∈ s.data →
        ch ∈ (req.body.getD "").data) := by
  constructor
  · intro b e opts henc
    simp [NewRequest, newRequestNoOpts, baseURLParse, hp, hb, hr, henc]
  · intro s hm
    have hm' : validMethod (if method = "" then "GET" else method) = true := by
      simpa using hm
    refine ⟨{ method := if method = "" then "GET" else method,
              url := resolveRef base refURL,
              body := some (jsonEncodeString false s ++ "\n") }, ?_, rfl, ?_⟩
    · simp [NewRequest, newRequestNoOpts, baseURLParse, httpNewRequest,
        hp, hb, hr, hm', jsonEncode]
    · intro ch hch hmem
      have h1 : ch ∈ jsonEscapeChar false ch := by
        have hor : ch = '<' ∨ ch = '>' ∨ ch = '&' := by simpa using hch
        rcases hor with rfl | rfl | rfl <;> decide
      show ch ∈ (jsonEncodeString false s ++ "\n").data
      rw [string_data_append]
      refine List.mem_append_left _ ?_
      rw [jsonEncodeString, string_data_append, string_data_append]
      exact List.mem_append_left _
        (List.mem_append_right _ (mem_jsonStringChars false ch s.data hmem h1))

/-- Witness for C8: a body containing "a<b&c>d" keeps the three
characters verbatim; an unsupported body value propagates the encoder's
error. -/
theorem newRequest_body_encoding_witness :
    NewRequest ctlParseRef (fun b r => ⟨b.scheme, b.repr ++ r.repr⟩) jsonEncode
        ⟨some ⟨"https", "https://api.ebay.com/"⟩⟩ "POST" "item"
        (some (GoValue.unsupported "func()")) [] =
      .err "json: unsupported type: func()" ∧
    ∃ req, NewRequest ctlParseRef
        (fun b r => ⟨b.scheme, b.repr ++ r.repr⟩) jsonEncode
        ⟨some ⟨"https", "https://api.ebay.com/"⟩⟩ "POST" "item"
        (some (GoValue.str "a<b&c>d")) [] = .ok req ∧
      req.body = some (jsonEncodeString false "a<b&c>d" ++ "\n") ∧
      ∀ ch ∈ (['<', '>', '&'] : List Char), ch ∈ "a<b&c>d".data →
        ch ∈ (req.body.getD "").data := by
  constructor
  · exact (newRequest_body_encoding ctlParseRef
      (fun b r => ⟨b.scheme, b.repr ++ r.repr⟩) jsonEncode
      _ "POST" "item" _ _ rfl rfl rfl).1 _ _ _ rfl
  · exact (newRequest_body_encoding ctlParseRef
      (fun b r => ⟨b.scheme, b.repr ++ r.repr⟩) jsonEncode
      _ "POST" "item" _ _ rfl rfl rfl).2 "a<b&c>d" (by decide)

/-- C9: `NewCustomClient` returns an error iff the base URL string does
not end with a slash; every string ending with a slash passes
construction. -/
theorem newCustomClient_trailing_slash (parse : String → Option URL)
    (baseURL : String) :
    ((∃ e, NewCustomClient parse baseURL = .error e) ↔
      trailingSlash baseURL = false) ∧
    (trailingSlash baseURL = true →
      NewCustomClient parse baseURL = .ok (newClient parse baseURL)) := by
  unfold NewCustomClient
  cases h : trailingSlash baseURL <;> simp [h]

/-- Witness for C9: the production base URL passes, a slashless string
fails. -/
theorem newCustomClient_trailing_slash_witness :
    NewCustomClient ctlParse "https://api.ebay.com/" =
      .ok (newClient ctlParse "https://api.ebay.com/") ∧
    ∃ e, NewCustomClient ctlParse "https://api.ebay.com" = .error e :=
  ⟨(newCustomClient_trailing_slash ctlParse "https://api.ebay.com/").2 (by decide),
   (newCustomClient_trailing_slash ctlParse "https://api.ebay.com").1.mpr (by decide)⟩

/-- Counterexample to C10 as stated: a client whose base URL is nil does
not dereference it on every subsequent `NewRequest`. A path that is
itself an absolute URL makes `ResolveReference` take the absolute-URI
branch, which never touches the nil base, so the call succeeds; and a
path that fails to parse gets that parse error returned before the base
is touched. Only a parseable scheme-less path reaches the nil
dereference. -/
theorem newRequest_nil_base_not_always_deref :
    NewRequest (β := GoValue) ctlParseRef (fun _ r => r) jsonEncode
        ⟨none⟩ "GET" "https://example.com/x" none [] =
      .ok { method := "GET", url := ⟨"https", "https://example.com/x"⟩ } ∧
    NewRequest (β := GoValue) ctlParseRef (fun _ r => r) jsonEncode
        ⟨none⟩ "GET" "ht\ttp://example.com/x" none [] =
      .err "net/url: invalid control character in URL" := by
  constructor <;> rfl

/-- C10 (amended): client construction discards the base-URL parse
error — a string that ends in "/" but fails to parse still passes
`NewCustomClient` and yields a client whose base URL is nil — and a
subsequent `NewRequest` on that client whose path passes the
leading-slash check and parses as a scheme-less reference (as every
relative API path does) dereferences the nil base URL (the `panics`
outcome) instead of returning a URLError; a path that itself fails to
parse gets that parse error back, and an absolute-URL path bypasses the
nil base. -/
theorem newClient_ignores_parse_error (parse : String → Option URL)
    (s : String) (hslash : trailingSlash s = true) (hparse : parse s = none) :
    NewCustomClient parse s = .ok ⟨none⟩ ∧
    ∀ {β : Type} (parseRef : String → Except String URL)
      (resolveRef : URL → URL → URL)
      (encode : Bool → β → Except String String)
      (method urlStr : String) (body : Option β) (opts : List Opt)
      (refURL : URL),
      leadingSlash urlStr = false →
      parseRef urlStr = .ok refURL →
      refURL.scheme = "" →
      NewRequest parseRef resolveRef encode ⟨none⟩ method urlStr body opts =
        .panics := by
  constructor
  · unfold NewCustomClient newClient
    simp [hslash, hparse]
  · intro β parseRef resolveRef encode method urlStr body opts refURL hp hr hs
    simp [NewRequest, newRequestNoOpts, baseURLParse, hp, hr, hs]

/-- Witness for C10 (amended): `url.Parse` rejects control characters,
so a base URL containing a tab (and ending in "/") yields a client with
a nil base URL, on which `NewRequest` with a relative browse path
panics. -/
theorem newClient_ignores_parse_error_witness :
    NewCustomClient ctlParse "ht\ttp://example.com/" = .ok ⟨none⟩ ∧
    NewRequest (β := GoValue) ctlParseRef
      (fun b r => ⟨b.scheme, b.repr ++ r.repr⟩) jsonEncode
      ⟨none⟩ "GET" "buy/browse/v1/item" none [] = .panics := by
  obtain ⟨h1, h2⟩ :=
    newClient_ignores_parse_error ctlParse "ht\ttp://example.com/"
      (by decide) (by decide)
  exact ⟨h1, h2 _ _ _ _ _ _ _ ⟨"", "buy/browse/v1/item"⟩ rfl rfl rfl⟩

/-- Counterexample to C3 as stated: on a 2xx response whose body fails to
decode into the destination, `Do` returns the decode error, yet the
destination is no longer in its initial state — the JSON decoder wrote
the `itemID` field before failing on `total` — so an error return does
not imply an untouched destination. -/
theorem do_decode_error_touches_dest :
    (Do (fun _ => "DUMP")
        (fun _ => .ok ⟨200, "\x7b\"itemId\":\"x\",\"total\":true\x7d"⟩)
        (fun _ => none) itemDecodeAt
        { method := "GET", url := ⟨"https", "https://api.ebay.com/item"⟩ } true
        ({} : Item)).err =
      some (.decodeFailure
        "json: cannot unmarshal bool into Go struct field Item.total of type int") ∧
    (Do (fun _ => "DUMP")
        (fun _ => .ok ⟨200, "\x7b\"itemId\":\"x\",\"total\":true\x7d"⟩)
        (fun _ => none) itemDecodeAt
        { method := "GET", url := ⟨"https", "https://api.ebay.com/item"⟩ } true
        ({} : Item)).dest ≠ ({} : Item) := by
  constructor <;> decide

/-- C3 (amended): whenever `Do` fails before reaching the destination
decode — a transport failure, or a non-2xx status reported by
`CheckResponse` — the caller-supplied destination is left untouched and
that single error is returned; a decode failure on a success response
also returns a single error, but the destination then holds whatever the
JSON decoder wrote before failing. -/
theorem do_error_dest_behavior {δ : Type} (dumpOf : Request → String)
    (send : Request → Except String Response)
    (decodeErrBody : String → Option (List Error))
    (decodeDest : String → δ → Option String × δ)
    (req : Request) (wantDest : Bool) (dest : δ) :
    (∀ e, send req = .error e →
      Do dumpOf send decodeErrBody decodeDest req wantDest dest =
        { err := some (.transport e), dest := dest,
          bodyClosed := false, bodyRead := false }) ∧
    (∀ resp errorData, send req = .ok resp →
      CheckResponse decodeErrBody resp (dumpOf req) = some errorData →
      Do dumpOf send decodeErrBody decodeDest req wantDest dest =
        { err := some (.api errorData), dest := dest,
          bodyClosed := true, bodyRead := true }) ∧
    (∀ resp e d, send req = .ok resp →
      CheckResponse decodeErrBody resp (dumpOf req) = none →
      wantDest = true →
      decodeDest resp.body dest = (some e, d) →
      Do dumpOf send decodeErrBody decodeDest req wantDest dest =
        { err := some (.decodeFailure e), dest := d,
          bodyClosed := true, bodyRead := true }) := by
  refine ⟨?_, ?_, ?_⟩
  · intro e hsend
    simp [Do, hsend]
  · intro resp errorData hsend hcheck
    simp [Do, hsend, hcheck]
  · intro resp e d hsend hcheck hwant hdec
    simp [Do, hsend, hcheck, hwant, hdec]

/-- Witness for C3 (amended): a refused connection returns the transport
error and leaves a fresh `Item` destination untouched. -/
theorem do_error_dest_behavior_witness :
    Do (fun _ => "DUMP") (fun _ => .error "dial tcp: connection refused")
        (fun _ => none) itemDecodeAt
        { method := "GET", url := ⟨"https", "https://api.ebay.com/item"⟩ } true
        ({} : Item) =
      { err := some (.transport "dial tcp: connection refused"),
        dest := {}, bodyClosed := false, bodyRead := false } :=
  (do_error_dest_behavior (fun _ => "DUMP")
      (fun _ => .error "dial tcp: connection refused") (fun _ => none)
      itemDecodeAt { method := "GET", url := ⟨"https", "https://api.ebay.com/item"⟩ }
      true {}).1 _ rfl

/-- Counterexample to C6 as stated: on a 2xx response with a nil
destination, `Do` succeeds without decoding and the deferred close runs,
but no statement on that path reads the response body, so the body is
not "fully read" — it is closed unread. -/
theorem do_nil_dest_body_unread :
    Do (fun _ => "DUMP") (fun _ => .ok ⟨200, "\x7b\"itemId\":\"x\"\x7d"⟩)
        (fun _ => none) itemDecodeAt
        { method := "GET", url := ⟨"https", "https://api.ebay.com/item"⟩ } false
        ({} : Item) =
      { err := none, dest := {}, bodyClosed := true, bodyRead := false } ∧
    ¬ ((Do (fun _ => "DUMP") (fun _ => .ok ⟨200, "\x7b\"itemId\":\"x\"\x7d"⟩)
        (fun _ => none) itemDecodeAt
        { method := "GET", url := ⟨"https", "https://api.ebay.com/item"⟩ } false
        ({} : Item)).bodyRead = true) := by
  constructor <;> decide

/-- C6 (amended): when `Do` receives a 2xx response and the destination
is nil, it returns success without attempting any decode and without
touching the destination; the response body is not read on that path,
but the deferred `resp.Body.Close()` still runs, releasing the
connection by closing the unread body. -/
theorem do_success_nil_dest {δ : Type} (dumpOf : Request → String)
    (send : Request → Except String Response)
    (decodeErrBody : String → Option (List Error))
    (decodeDest : String → δ → Option String × δ)
    (req : Request) (dest : δ) (resp : Response)
    (hsend : send req = .ok resp)
    (h2 : 200 ≤ resp.statusCode) (h3 : resp.statusCode < 300) :
    Do dumpOf send decodeErrBody decodeDest req false dest =
      { err := none, dest := dest, bodyClosed := true, bodyRead := false } := by
  have hcheck : CheckResponse decodeErrBody resp (dumpOf req) = none := by
    unfold CheckResponse
    simp [h2, h3]
  simp [Do, hsend, hcheck]

/-- Witness for C6 (amended) at a concrete 204 response. -/
theorem do_success_nil_dest_witness :
    Do (fun _ => "DUMP") (fun _ => .ok ⟨204, ""⟩) (fun _ => none) itemDecodeAt
        { method := "DELETE", url := ⟨"https", "https://api.ebay.com/item"⟩ } false
        ({} : Item) =
      { err := none, dest := {}, bodyClosed := true, bodyRead := false } :=
  do_success_nil_dest (fun _ => "DUMP") (fun _ => .ok ⟨204, ""⟩)
    (fun _ => none) itemDecodeAt
    { method := "DELETE", url := ⟨"https", "https://api.ebay.com/item"⟩ } {} ⟨204, ""⟩
    rfl (by decide) (by decide)

end Ebay
